import Mathlib

set_option maxRecDepth 8000

/-! Shallow embedding of the dnstwist domain-permutation tool
(src/dnstwist.py) together with proofs about the claims of its
specification.  Python strings are modelled as lists of characters
(`Str`), Python exceptions as an explicit error type, and every partial
Python operation (indexing, dict access, unbound locals) is modelled
explicitly. -/

abbrev Str := List Char

/-- ASCII test: Python bytes/ascii-encodable characters. -/
def isAsciiCh (c : Char) : Bool := decide (c.toNat < 128)

/-- ASCII digit 0-9. -/
def isDigitCh (c : Char) : Bool := decide (48 ≤ c.toNat) && decide (c.toNat ≤ 57)

/-- ASCII lowercase letter a-z. -/
def isLowerCh (c : Char) : Bool := decide (97 ≤ c.toNat) && decide (c.toNat ≤ 122)

/-- ASCII uppercase letter A-Z. -/
def isUpperCh (c : Char) : Bool := decide (65 ≤ c.toNat) && decide (c.toNat ≤ 90)

/-- ASCII letter of either case. -/
def isLetterCh (c : Char) : Bool := isLowerCh c || isUpperCh c

/-- ASCII letter or digit. -/
def isAlnumCh (c : Char) : Bool := isLetterCh c || isDigitCh c

/-- Model of Python str.lower restricted to the ASCII case mappings.  The
non-ASCII characters the URL validator can accept (dotless i and long s,
see sreCaseExtra below) are fixed points of str.lower, so the model is
faithful where it feeds the validator; other non-ASCII case mappings (such
as the Kelvin sign lowering to k) are outside this model. -/
def lowerCh (c : Char) : Char := if isUpperCh c then Char.ofNat (c.toNat + 32) else c

/-- Python str.lower over the modelled ASCII range. -/
def pyLower (s : Str) : Str := s.map lowerCh

/-- Python str.split(sep) for a one-character separator: splitting on every
occurrence, keeping empty pieces, and returning one (possibly empty) piece
when the separator does not occur. -/
def splitOnPred (p : Char → Bool) : Str → List Str
  | [] => [[]]
  | c :: rest =>
    let r := splitOnPred p rest
    if p c then [] :: r else (c :: r.headD []) :: r.tail

/-- Python str.strip(t) for a one-character argument: remove that character
from both ends. -/
def stripChar (t : Char) (s : Str) : Str :=
  ((s.dropWhile (· = t)).reverse.dropWhile (· = t)).reverse

/-- Order-preserving de-duplication keeping the first occurrence.  This is the
deterministic model used for every Python list(set(...)) in the source; the
iteration order of a CPython set is unspecified, and no claim depends on it. -/
def pyDedupAux {α : Type} [DecidableEq α] (seen : List α) : List α → List α
  | [] => []
  | x :: xs => if x ∈ seen then pyDedupAux seen xs else x :: pyDedupAux (x :: seen) xs

/-- Model of list(set(l)) keeping first occurrences. -/
def pyDedup {α : Type} [DecidableEq α] (l : List α) : List α := pyDedupAux [] l

/-- Lexicographic comparison of strings by code point, as CPython compares
str values in sorted(). -/
def strLeB : Str → Str → Bool
  | [], _ => true
  | _ :: _, [] => false
  | c :: cs, d :: ds => if c = d then strLeB cs ds else decide (c.toNat < d.toNat)

/-- Stable insertion used by the model of Python sorted(). -/
def insertStr (x : Str) : List Str → List Str
  | [] => [x]
  | y :: ys => if strLeB x y then x :: y :: ys else y :: insertStr x ys

/-- Model of Python sorted() on lists of strings (ascending by code point). -/
def sortStrs (l : List Str) : List Str := l.foldr insertStr []

/-- Ascending insertion for natural numbers. -/
def insertNat (x : Nat) : List Nat → List Nat
  | [] => [x]
  | y :: ys => if x ≤ y then x :: y :: ys else y :: insertNat x ys

/-- Model of Python sorted() on lists of naturals. -/
def sortNats (l : List Nat) : List Nat := l.foldr insertNat []

/-- Python substring containment (the in operator on str). -/
def isSubstr (pat s : Str) : Bool :=
  (List.range (s.length + 1)).any (fun i => pat.isPrefixOf (s.drop i))

/-- Non-ASCII characters that Python re matches for the classes [a-z] and
[a-z0-9] under re.IGNORECASE with str patterns, beyond ASCII letters of
either case: U+0130 capital I with dot above (simple lowercase i), U+0131
dotless i, U+017F long s and U+212A Kelvin sign (the sre case-equivalences
of i, s and k).  Determined by scanning every code point against the
interpreter; digits contribute no case-equivalents. -/
def sreCaseExtra : List Char :=
  [Char.ofNat 0x130, Char.ofNat 0x131, Char.ofNat 0x17F, Char.ofNat 0x212A]

/-- Characters matching the class [a-z0-9] under re.IGNORECASE (Unicode,
str pattern): ASCII letters of either case, digits, and the sre
case-equivalents. -/
def matchAlnumCI (c : Char) : Bool := isAlnumCh c || decide (c ∈ sreCaseExtra)

/-- Characters matching the class [a-z] under re.IGNORECASE (Unicode, str
pattern). -/
def matchAlphaCI (c : Char) : Bool := isLetterCh c || decide (c ∈ sreCaseExtra)

/-- Python exceptions that the modelled code can raise. -/
inductive PyExc where
  | valueError
  | indexError
  | unboundLocal
  | keyError
  | unicodeError
deriving DecidableEq, Repr

namespace UrlParser

/-- Python regex \s over the byte range used here (the inputs the program
feeds to re are ASCII). -/
def isSpaceCh (c : Char) : Bool :=
  c = ' ' || c = '\t' || c = '\n' || c = '\r' || c = '\x0b' || c = '\x0c'

/-- Character class of the scheme group of the RFC 3986 regex, [^:/?#\s]. -/
def schemeCh (c : Char) : Bool := !(c = ':' || c = '/' || c = '?' || c = '#' || isSpaceCh c)

/-- Character class of the authority group, [^/?#\s]. -/
def authCh (c : Char) : Bool := !(c = '/' || c = '?' || c = '#' || isSpaceCh c)

/-- Character class of the path group, [^?#\s]. -/
def pathCh (c : Char) : Bool := !(c = '?' || c = '#' || isSpaceCh c)

/-- Character class of the query group, [^#\s]. -/
def queryCh (c : Char) : Bool := !(c = '#' || isSpaceCh c)

/-- Character class of the fragment group, [^\s]. -/
def fragCh (c : Char) : Bool := !(isSpaceCh c)

/-- Result groups of the RFC 3986 regex used by UrlParser.__parse. -/
structure UriParts where
  scheme : Str
  authority : Str
  path : Str
  query : Str
  fragment : Str
deriving DecidableEq, Repr

/-- Model of matching the re_rfc3986_enhanced regex
    (scheme:)? (//authority)? path (?query)? (#fragment)? with MULTILINE
against the whole input via re.match.  Every group is a run over a character
class excluding its own delimiter, so greedy matching is deterministic: each
group takes its maximal run, and the match succeeds exactly when the
remainder is empty or starts with a newline (the MULTILINE dollar anchor). -/
def rfcMatch (url : Str) : Option UriParts :=
  let run0 := url.takeWhile schemeCh
  let rest0 := url.drop run0.length
  let sr := if run0 ≠ [] ∧ rest0.headD ' ' = ':' then (run0, rest0.tail) else (([] : Str), url)
  let r1 := sr.2
  let ar :=
    if r1.take 2 = ['/', '/'] then
      let run := (r1.drop 2).takeWhile authCh
      (run, (r1.drop 2).drop run.length)
    else (([] : Str), r1)
  let r2 := ar.2
  let pth := r2.takeWhile pathCh
  let r3 := r2.drop pth.length
  let qr :=
    if r3.headD ' ' = '?' then
      let run := r3.tail.takeWhile queryCh
      (run, r3.tail.drop run.length)
    else (([] : Str), r3)
  let r4 := qr.2
  let fr :=
    if r4.headD ' ' = '#' then
      let run := r4.tail.takeWhile fragCh
      (run, r4.tail.drop run.length)
    else (([] : Str), r4)
  let r5 := fr.2
  if r5 = [] ∨ r5.headD ' ' = '\n' then some ⟨sr.1, ar.1, pth, qr.1, fr.1⟩ else none

/-- One hyphen-joined label of UrlParser validation: compilation of the
regex piece [a-z0-9]+(-[a-z0-9]+)* (IGNORECASE): the label splits on
hyphens into groups that are all non-empty runs over the IGNORECASE
alphanumeric class (which includes the sre case-equivalents). -/
def hyphenGroupOk (l : Str) : Bool :=
  (splitOnPred (· = '-') l).all (fun g => decide (g ≠ []) && g.all matchAlnumCI)

/-- Body of the UrlParser.__validate_domain regex
\A([a-z0-9]+(-[a-z0-9]+)*\.)+[a-z]{2,}\Z with IGNORECASE: one or more
hyphen-group labels each followed by a dot, then a final all-letter label of
length at least 2.  Splitting on dots is exact because no label may contain
a dot. -/
def urlRegexOk (domain : Str) : Bool :=
  let chunks := splitOnPred (· = '.') domain
  decide (chunks.dropLast ≠ []) && chunks.dropLast.all hyphenGroupOk &&
    decide (2 ≤ (chunks.getLastD []).length) && (chunks.getLastD []).all matchAlphaCI

/-- UrlParser.__validate_domain (src/dnstwist.py lines 260-266): reject when
longer than 255; strip one trailing dot (indexing domain[-1] raises
IndexError on an empty domain); then match the regex. -/
def validate_domain (domain0 : Str) : Except PyExc Bool :=
  if domain0.length > 255 then Except.ok false
  else
    match domain0.getLast? with
    | none => Except.error PyExc.indexError
    | some last =>
      let domain := if last = '.' then domain0.dropLast else domain0
      Except.ok (urlRegexOk domain)

/-- Parsed state of a UrlParser object. -/
structure UrlRec where
  url : Str
  scheme : Str
  authority : Str
  domain : Str
  path : Str
  query : Str
deriving DecidableEq, Repr

/-- UrlParser.__parse (src/dnstwist.py lines 227-258).  When the regex does
not match, every field keeps its empty initial value; a truthy authority
sets domain to the lowercased part before the first colon and validates it,
raising ValueError (domain-invalid) on failure. -/
def parse (url : Str) : Except PyExc UrlRec :=
  match rfcMatch url with
  | none => Except.ok ⟨url, [], [], [], [], []⟩
  | some m =>
    let scheme :=
      if m.scheme ≠ [] then
        (if "http".data.isPrefixOf m.scheme then m.scheme else "http".data)
      else []
    let step : Except PyExc (Str × Str) :=
      if m.authority ≠ [] then
        let domain := pyLower ((splitOnPred (· = ':') m.authority).headD [])
        match validate_domain domain with
        | Except.error e => Except.error e
        | Except.ok true => Except.ok (m.authority, domain)
        | Except.ok false => Except.error PyExc.valueError
      else Except.ok ([], [])
    match step with
    | Except.error e => Except.error e
    | Except.ok (authority, domain) =>
      let pth := if m.path ≠ [] then m.path else []
      let query := if m.query ≠ [] then '?' :: m.query else []
      Except.ok ⟨url, scheme, authority, domain, pth, query⟩

/-- UrlParser.__init__ (lines 214-225): prepend http:// when the input has
no :// and run __parse. -/
def init (input : Str) : Except PyExc UrlRec :=
  let u := if ¬ (isSubstr "://".data input = true) then "http://".data ++ input else input
  parse u

/-- The authority component the RFC 3986 regex yields for an input, after the
constructor has normalised the scheme (empty when the regex does not match,
mirroring the untouched empty field). -/
def parsedAuthorityOf (input : Str) : Str :=
  let u := if ¬ (isSubstr "://".data input = true) then "http://".data ++ input else input
  ((rfcMatch u).map (fun m => m.authority)).getD []

end UrlParser

/-! Model of the CPython idna and punycode codecs (encodings/idna.py and
encodings/punycode.py), which str.encode("idna") / bytes.decode("idna")
dispatch to.  nameprep is modelled as the identity function: every character
the generator can feed to the codec (ASCII plus the homoglyph table) is
fixed by nameprep (lowercase, NFKC-stable, not prohibited), so this is
faithful on the reachable inputs. -/

/-- Digit characters of the punycode codec. -/
def punyDigits : Str := "abcdefghijklmnopqrstuvwxyz0123456789".data

/-- Threshold function T of RFC 3492 as in encodings/punycode.py; Nat
subtraction truncates below zero exactly like the Python min/max clamping. -/
def punyT (j bias : Nat) : Nat :=
  let r := 36 * (j + 1) - bias
  if r < 1 then 1 else if r > 26 then 26 else r

theorem punyT_pos (j bias : Nat) : 1 ≤ punyT j bias := by
  unfold punyT
  dsimp only
  split
  · omega
  · split <;> omega

/-- generate_generalized_integer: digit indices of one delta. -/
def punyGGI (bias : Nat) : Nat → Nat → List Nat
  | n, j =>
    if n < punyT j bias then [n]
    else (punyT j bias + ((n - punyT j bias) % (36 - punyT j bias))) ::
      punyGGI bias ((n - punyT j bias) / (36 - punyT j bias)) (j + 1)
termination_by n _ => n
decreasing_by
  have ht := punyT_pos j bias
  have hle : (n - punyT j bias) / (36 - punyT j bias) ≤ n - punyT j bias := Nat.div_le_self _ _
  simp only [not_lt] at *
  omega

/-- Loop of the punycode adapt function: halve by 35 while above 455,
counting 36 per division. -/
def punyAdaptLoop : Nat → Nat × Nat
  | delta =>
    if h : delta > 455 then
      let p := punyAdaptLoop (delta / 35)
      (p.1, p.2 + 36)
    else (delta, 0)
termination_by delta => delta
decreasing_by exact Nat.div_lt_self (by omega) (by omega)

/-- Bias adaptation of the punycode codec. -/
def punyAdapt (delta0 : Nat) (first : Bool) (numchars : Nat) : Nat :=
  let d1 := if first then delta0 / 700 else delta0 / 2
  let d2 := d1 + d1 / numchars
  let p := punyAdaptLoop d2
  p.2 + (36 * p.1) / (p.1 + 38)

/-- generate_integers: encode the list of deltas, adapting the bias. -/
def punyGenIntegers (baselen : Nat) (deltas : List Nat) : Str :=
  (deltas.foldl
    (fun (acc : Str × Nat × Nat) delta =>
      let s := (punyGGI acc.2.1 delta 0).map (fun k => punyDigits.getD k 'a')
      (acc.1 ++ s, punyAdapt delta (acc.2.2 = 0) (baselen + acc.2.2 + 1), acc.2.2 + 1))
    ([], 72, 0)).1

/-- The selective indices at which a given code point occurs, following the
repeated selective_find scan of encodings/punycode.py: the counter advances
on every character below the target and on every hit. -/
def punyFindIndices (text : List Nat) (ch : Nat) : List Int :=
  (text.foldl
    (fun (acc : List Int × Int) c =>
      if c = ch then (acc.1 ++ [acc.2 + 1], acc.2 + 1)
      else if c < ch then (acc.1, acc.2 + 1)
      else acc)
    ([], (-1 : Int))).1

/-- insertion_unsort: the deltas for the sorted set of extended code points.
Integers track the -1 initialised counters of the Python code; every
appended delta is non-negative, so toNat is exact. -/
def punyUnsort (text : List Nat) (extended : List Nat) : List Nat :=
  (extended.foldl
    (fun (acc : List Nat × Nat × Int) c =>
      let curlen := (text.filter (fun x => decide (x < c))).length
      let start : Int := ((curlen + 1 : Nat) : Int) * ((c : Int) - (acc.2.1 : Int))
      let inner :=
        (punyFindIndices text c).foldl
          (fun (a2 : List Nat × Int × Int) ix =>
            let d := a2.2.2 + (ix - a2.2.1)
            (a2.1 ++ [(d - 1).toNat], ix, 0))
          (acc.1, acc.2.2, start)
      (inner.1, c, inner.2.1))
    ([], 128, -1)).1

/-- punycode_encode of encodings/punycode.py: basic code points, a hyphen
separator when any exist, then the generalized-integer encoding of the
deltas of the extended code points in ascending order. -/
def punycodeEncode (label : Str) : Str :=
  let text := label.map Char.toNat
  let base := (text.filter (fun c => decide (c < 128))).map Char.ofNat
  let extended := sortNats (pyDedup (text.filter (fun c => ¬ decide (c < 128))))
  let deltas := punyUnsort text extended
  let ext := punyGenIntegers base.length deltas
  if base ≠ [] then base ++ ['-'] ++ ext else ext

/-- Digit value of one extended character during punycode decoding (the
extended part is upper-cased by punycode_decode first). -/
def punyDecodeDigit (ch : Nat) : Option Nat :=
  if 0x41 ≤ ch ∧ ch ≤ 0x5A then some (ch - 0x41)
  else if 0x30 ≤ ch ∧ ch ≤ 0x39 then some (ch - 22)
  else none

/-- decode_generalized_number in strict mode: consume digits until one falls
below its threshold; none models the UnicodeError raises. -/
def punyDGN : List Nat → Nat → Nat → Nat → Nat → Option (List Nat × Nat)
  | [], _, _, _, _ => none
  | ch :: rest, bias, j, result, w =>
    match punyDecodeDigit ch with
    | none => none
    | some digit =>
      let t := punyT j bias
      let result := result + digit * w
      if digit < t then some (rest, result)
      else punyDGN rest bias (j + 1) result (w * (36 - t))

theorem punyDGN_shrink :
    ∀ (l : List Nat) (bias j result w : Nat) (rest : List Nat) (v : Nat),
      punyDGN l bias j result w = some (rest, v) → rest.length < l.length := by
  intro l
  induction l with
  | nil => intro bias j result w rest v h; simp [punyDGN] at h
  | cons ch tl ih =>
    intro bias j result w rest v h
    simp only [punyDGN] at h
    cases hd : punyDecodeDigit ch with
    | none => rw [hd] at h; exact absurd h (by simp)
    | some digit =>
      rw [hd] at h
      simp only at h
      split at h
      · cases h
        simp
      · have := ih _ _ _ _ _ _ h
        simp only [List.length_cons]
        omega

/-- insertion_sort of punycode decoding: repeatedly decode a delta, advance
the insertion position and code point, and insert.  Recursion is on the
length of the remaining extended string, which punyDGN strictly shrinks. -/
def punyInsSort (base : List Nat) (ch : Nat) (pos : Int) (bias : Nat) (first : Bool)
    (ext : List Nat) : Option (List Nat) :=
  match hx : ext with
  | [] => some base
  | _ :: _ =>
    match hd : punyDGN ext bias 0 0 1 with
    | none => none
    | some (rest, delta) =>
      let pos1 : Int := pos + (delta : Int) + 1
      let ch1 : Int := (ch : Int) + pos1 / ((base.length : Int) + 1)
      if ch1 > 0x10FFFF then none
      else
        let pos2 : Int := pos1 % ((base.length : Int) + 1)
        let base1 := base.take pos2.toNat ++ [ch1.toNat] ++ base.drop pos2.toNat
        punyInsSort base1 ch1.toNat pos2 (punyAdapt delta first base1.length) false rest
termination_by ext.length
decreasing_by
  have := punyDGN_shrink ext bias 0 0 1 rest delta hd
  simpa [hx] using this

/-- Last index of a hyphen, as bytes.rfind(b"-"). -/
def rfindHyphen (text : List Nat) : Option Nat :=
  (((List.range text.length).filter (fun i => text.getD i 0 = 45)).getLast?)

/-- Uppercasing of the extended part as done by punycode_decode. -/
def punyUpper (text : List Nat) : List Nat :=
  text.map (fun c => if 97 ≤ c ∧ c ≤ 122 then c - 32 else c)

/-- punycode_decode in strict mode: split at the last hyphen, uppercase the
extended part, and run the insertion sort; yields code points. -/
def punycodeDecode (label : Str) : Option Str :=
  let text := label.map Char.toNat
  let pr :=
    match rfindHyphen text with
    | none => (([] : List Nat), punyUpper text)
    | some i => (text.take i, punyUpper (text.drop (i + 1)))
  match punyInsSort pr.1 0x80 (-1) 72 true pr.2 with
  | none => none
  | some codes => some (codes.map Char.ofNat)

/-- ToASCII of encodings/idna.py with nameprep modelled as the identity:
an ASCII label passes length checks only; otherwise the label must not
start with the ACE prefix, is punycode-encoded, prefixed with xn--, and
length-checked.  none models the UnicodeError raises. -/
def toASCII (label : Str) : Option Str :=
  if label.all isAsciiCh then
    if 0 < label.length ∧ label.length < 64 then some label else none
  else if "xn--".data.isPrefixOf label then none
  else
    let p := "xn--".data ++ punycodeEncode label
    if p.length < 64 then some p else none

/-- Label separators recognised by the idna codec (regular dot and the
ideographic/fullwidth/halfwidth dots). -/
def idnaDots : List Char := ['.', '。', '．', '｡']

/-- Model of str.encode("idna") (followed by the trivial ascii .decode()):
on the all-ASCII fast path only per-label lengths are checked and the input
is returned unchanged; otherwise each label goes through ToASCII and the
results are joined with dots, preserving one trailing dot.  none models
UnicodeError. -/
def encodeIdna (input : Str) : Option Str :=
  if input = [] then some []
  else if input.all isAsciiCh then
    let labels := splitOnPred (· = '.') input
    if labels.dropLast.all (fun l => 0 < l.length ∧ l.length < 64) ∧
        (labels.getLastD []).length < 64 then
      some input
    else none
  else
    let labels0 := splitOnPred (fun c => decide (c ∈ idnaDots)) input
    let hasTrail := labels0.getLastD [] = []
    let labels := if hasTrail then labels0.dropLast else labels0
    match labels.mapM toASCII with
    | none => none
    | some ls => some (List.intercalate ['.'] ls ++ if hasTrail then ['.'] else [])

/-- ToUnicode of encodings/idna.py with nameprep modelled as the identity:
labels without the ACE prefix are returned unchanged; xn-- labels are
punycode-decoded and checked to round-trip through ToASCII against the
lowercased original. -/
def toUnicode (label : Str) : Option Str :=
  if label.length > 1024 then none
  else if ¬ ("xn--".data.isPrefixOf label = true) then some label
  else
    match punycodeDecode (label.drop 4) with
    | none => none
    | some res =>
      match toASCII res with
      | none => none
      | some l2 => if pyLower label = pyLower l2 then some res else none

/-- Model of bytes.decode("idna"): split on dots, keep one trailing dot, and
run ToUnicode on every label. -/
def decodeIdna (input : Str) : Option Str :=
  if input = [] then some []
  else
    let labels0 := splitOnPred (fun c => decide (c ∈ idnaDots)) input
    let hasTrail := labels0.getLastD [] = []
    let labels := if hasTrail then labels0.dropLast else labels0
    match labels.mapM toUnicode with
    | none => none
    | some ls => some (List.intercalate ['.'] ls ++ if hasTrail then ['.'] else [])

namespace DomainFuzz

/-- QWERTY adjacency table (src/dnstwist.py lines 276-313), verbatim. -/
def qwerty : List (Char × Str) :=
  [('1', "2q".data), ('2', "3wq1".data), ('3', "4ew2".data), ('4', "5re3".data),
   ('5', "6tr4".data), ('6', "7yt5".data), ('7', "8uy6".data), ('8', "9iu7".data),
   ('9', "0oi8".data), ('0', "po9".data),
   ('q', "12wa".data), ('w', "3esaq2".data), ('e', "4rdsw3".data), ('r', "5tfde4".data),
   ('t', "6ygfr5".data), ('y', "7uhgt6".data), ('u', "8ijhy7".data), ('i', "9okju8".data),
   ('o', "0plki9".data), ('p', "lo0".data),
   ('a', "qwsz".data), ('s', "edxzaw".data), ('d', "rfcxse".data), ('f', "tgvcdr".data),
   ('g', "yhbvft".data), ('h', "ujnbgy".data), ('j', "ikmnhu".data), ('k', "olmji".data),
   ('l', "kop".data),
   ('z', "asx".data), ('x', "zsdc".data), ('c', "xdfv".data), ('v', "cfgb".data),
   ('b', "vghn".data), ('n', "bhjm".data), ('m', "njk".data)]

/-- QWERTZ adjacency table (lines 314-351), verbatim. -/
def qwertz : List (Char × Str) :=
  [('1', "2q".data), ('2', "3wq1".data), ('3', "4ew2".data), ('4', "5re3".data),
   ('5', "6tr4".data), ('6', "7zt5".data), ('7', "8uz6".data), ('8', "9iu7".data),
   ('9', "0oi8".data), ('0', "po9".data),
   ('q', "12wa".data), ('w', "3esaq2".data), ('e', "4rdsw3".data), ('r', "5tfde4".data),
   ('t', "6zgfr5".data), ('z', "7uhgt6".data), ('u', "8ijhz7".data), ('i', "9okju8".data),
   ('o', "0plki9".data), ('p', "lo0".data),
   ('a', "qwsy".data), ('s', "edxyaw".data), ('d', "rfcxse".data), ('f', "tgvcdr".data),
   ('g', "zhbvft".data), ('h', "ujnbgz".data), ('j', "ikmnhu".data), ('k', "olmji".data),
   ('l', "kop".data),
   ('y', "asx".data), ('x', "ysdc".data), ('c', "xdfv".data), ('v', "cfgb".data),
   ('b', "vghn".data), ('n', "bhjm".data), ('m', "njk".data)]

/-- AZERTY adjacency table (lines 352-389), verbatim. -/
def azerty : List (Char × Str) :=
  [('1', "2a".data), ('2', "3za1".data), ('3', "4ez2".data), ('4', "5re3".data),
   ('5', "6tr4".data), ('6', "7yt5".data), ('7', "8uy6".data), ('8', "9iu7".data),
   ('9', "0oi8".data), ('0', "po9".data),
   ('a', "2zq1".data), ('z', "3esqa2".data), ('e', "4rdsz3".data), ('r', "5tfde4".data),
   ('t', "6ygfr5".data), ('y', "7uhgt6".data), ('u', "8ijhy7".data), ('i', "9okju8".data),
   ('o', "0plki9".data), ('p', "lo0m".data),
   ('q', "zswa".data), ('s', "edxwqz".data), ('d', "rfcxse".data), ('f', "tgvcdr".data),
   ('g', "yhbvft".data), ('h', "ujnbgy".data), ('j', "iknhu".data), ('k', "olji".data),
   ('l', "kopm".data), ('m', "lp".data),
   ('w', "sxq".data), ('x', "wsdc".data), ('c', "xdfv".data), ('v', "cfgb".data),
   ('b', "vghn".data), ('n', "bhj".data)]

/-- The three keyboard dictionaries, in source order. -/
def keyboards : List (List (Char × Str)) := [qwerty, qwertz, azerty]

/-- Dictionary lookup: Python keys[c], none when c is not a key. -/
def kbLookup (kb : List (Char × Str)) (c : Char) : Option Str :=
  (kb.find? (fun p => p.1 = c)).map (fun p => p.2)

/-- Homoglyph table (lines 469-543), verbatim. -/
def glyphs : List (Char × List String) :=
  [('a', ["à", "á", "â", "ã", "ä", "å", "ɑ", "ạ", "ǎ", "ă", "ȧ", "ą"]),
   ('b', ["d", "lb", "ʙ", "ɓ", "ḃ", "ḅ", "ḇ", "ƅ"]),
   ('c', ["e", "ƈ", "ċ", "ć", "ç", "č", "ĉ"]),
   ('d', ["b", "cl", "dl", "ɗ", "đ", "ď", "ɖ", "ḑ", "ḋ", "ḍ", "ḏ", "ḓ"]),
   ('e', ["c", "é", "è", "ê", "ë", "ē", "ĕ", "ě", "ė", "ẹ", "ę", "ȩ", "ɇ", "ḛ"]),
   ('f', ["ƒ", "ḟ"]),
   ('g', ["q", "ɢ", "ɡ", "ġ", "ğ", "ǵ", "ģ", "ĝ", "ǧ", "ǥ"]),
   ('h', ["lh", "ĥ", "ȟ", "ħ", "ɦ", "ḧ", "ḩ", "ⱨ", "ḣ", "ḥ", "ḫ", "ẖ"]),
   ('i', ["1", "l", "í", "ì", "ï", "ı", "ɩ", "ǐ", "ĭ", "ỉ", "ị", "ɨ", "ȋ", "ī"]),
   ('j', ["ʝ", "ɉ"]),
   ('k', ["lk", "ik", "lc", "ḳ", "ḵ", "ⱪ", "ķ"]),
   ('l', ["1", "i", "ɫ", "ł"]),
   ('m', ["n", "nn", "rn", "rr", "ṁ", "ṃ", "ᴍ", "ɱ", "ḿ"]),
   ('n', ["m", "r", "ń", "ṅ", "ṇ", "ṉ", "ñ", "ņ", "ǹ", "ň", "ꞑ"]),
   ('o', ["0", "ȯ", "ọ", "ỏ", "ơ", "ó", "ö"]),
   ('p', ["ƿ", "ƥ", "ṕ", "ṗ"]),
   ('q', ["g", "ʠ"]),
   ('r', ["ʀ", "ɼ", "ɽ", "ŕ", "ŗ", "ř", "ɍ", "ɾ", "ȓ", "ȑ", "ṙ", "ṛ", "ṟ"]),
   ('s', ["ʂ", "ś", "ṣ", "ṡ", "ș", "ŝ", "š"]),
   ('t', ["ţ", "ŧ", "ṫ", "ṭ", "ț", "ƫ"]),
   ('u', ["ᴜ", "ǔ", "ŭ", "ü", "ʉ", "ù", "ú", "û", "ũ", "ū", "ų", "ư", "ů",
          "ű", "ȕ", "ȗ", "ụ"]),
   ('v', ["ṿ", "ⱱ", "ᶌ", "ṽ", "ⱴ"]),
   ('w', ["vv", "ŵ", "ẁ", "ẃ", "ẅ", "ⱳ", "ẇ", "ẉ", "ẘ"]),
   ('y', ["ʏ", "ý", "ÿ", "ŷ", "ƴ", "ȳ", "ɏ", "ỿ", "ẏ", "ỵ"]),
   ('z', ["ʐ", "ż", "ź", "ᴢ", "ƶ", "ẓ", "ẕ", "ⱬ"])]

/-- Glyph lookup returning the replacement strings as Str values. -/
def glyphLookup (c : Char) : Option (List Str) :=
  ((glyphs.find? (fun p => p.1 = c)).map (fun p => p.2.map String.data))

/-- Python str.replace for a one-character pattern: replace every
occurrence. -/
def strReplace (s : Str) (c : Char) (g : Str) : Str :=
  s.flatMap (fun x => if x = c then g else [x])

/-- DomainFuzz.__bitsquatting (lines 455-466): flip each of the eight bit
masks in each position, keeping results whose new code point is a digit, a
lowercase letter or a hyphen.  No de-duplication in the source. -/
def bitsquattingStrat (d : Str) : List Str :=
  (List.range d.length).flatMap (fun i =>
    [1, 2, 4, 8, 16, 32, 64, 128].filterMap (fun m =>
      let o := (d.getD i default).toNat ^^^ m
      if (48 ≤ o ∧ o ≤ 57) ∨ (97 ≤ o ∧ o ≤ 122) ∨ o = 45 then
        some (d.take i ++ [Char.ofNat o] ++ d.drop (i + 1))
      else none))

/-- One homoglyph pass (the loop body shared by both passes of
DomainFuzz.__homoglyph, lines 545-561): over every window size and start,
substitute every in-window character that has glyphs by each of its glyphs,
replacing all occurrences of it inside the window. -/
def homoPass (d : Str) : List Str :=
  (List.range' 1 (d.length - 1)).flatMap (fun ws =>
    (List.range (d.length - ws + 1)).flatMap (fun i =>
      let win := (d.drop i).take ws
      (List.range ws).flatMap (fun j =>
        match glyphLookup (win.getD j default) with
        | none => []
        | some gs => gs.map (fun g =>
            d.take i ++ strReplace win (win.getD j default) g ++ d.drop (i + ws)))))

/-- DomainFuzz.__homoglyph (lines 468-580): two passes, the second applied
to each first-pass result, unioned as sets. -/
def homoglyphStrat (d : Str) : List Str :=
  let result1 := pyDedup (homoPass d)
  let result2 := pyDedup (result1.flatMap homoPass)
  pyDedup (result1 ++ result2)

/-- DomainFuzz.__hyphenation (lines 582-588): insert a hyphen at every
interior position. -/
def hyphenationStrat (d : Str) : List Str :=
  (List.range' 1 (d.length - 1)).map (fun i => d.take i ++ ['-'] ++ d.drop i)

/-- DomainFuzz.__insertion (lines 590-604): for positions 1..len-2, insert
each keyboard neighbor of the character before and after it. -/
def insertionStrat (d : Str) : List Str :=
  pyDedup ((List.range' 1 (d.length - 2)).flatMap (fun i =>
    keyboards.flatMap (fun kb =>
      match kbLookup kb (d.getD i default) with
      | none => []
      | some cs => cs.flatMap (fun c =>
          [d.take i ++ [c, d.getD i default] ++ d.drop (i + 1),
           d.take i ++ [d.getD i default, c] ++ d.drop (i + 1)]))))

/-- Collapse of repeated characters, the re.sub of (.)\1+ with \1 in
__omission: maximal runs of a character other than a newline (the regex dot
does not match a newline) shrink to one occurrence. -/
def collapseGo (prev : Char) : Str → Str
  | [] => []
  | c :: rest =>
    if c = prev ∧ c ≠ '\n' then collapseGo prev rest
    else c :: collapseGo c rest

/-- Run collapse over a whole string. -/
def collapseRuns : Str → Str
  | [] => []
  | c :: rest => c :: collapseGo c rest

/-- DomainFuzz.__omission (lines 606-617): delete each character, then add
the collapsed-runs form when it is new and differs from the input. -/
def omissionStrat (d : Str) : List Str :=
  let result := (List.range d.length).map (fun i => d.take i ++ d.drop (i + 1))
  let n := collapseRuns d
  let result := if n ∉ result ∧ n ≠ d then result ++ [n] else result
  pyDedup result

/-- Model of Python str.isalpha restricted to ASCII letters; the registrable
the program mutates is ASCII because the URL parser rejects anything else. -/
def pyIsAlpha (c : Char) : Bool := isLetterCh c

/-- DomainFuzz.__repetition (lines 619-631): double each alphabetic
character. -/
def repetitionStrat (d : Str) : List Str :=
  pyDedup ((List.range d.length).filterMap (fun i =>
    if pyIsAlpha (d.getD i default) then
      some (d.take i ++ [d.getD i default, d.getD i default] ++ d.drop (i + 1))
    else none))

/-- DomainFuzz.__replacement (lines 633-642): replace each character by each
of its keyboard neighbors on each layout. -/
def replacementStrat (d : Str) : List Str :=
  pyDedup ((List.range d.length).flatMap (fun i =>
    keyboards.flatMap (fun kb =>
      match kbLookup kb (d.getD i default) with
      | none => []
      | some cs => cs.map (fun c => d.take i ++ [c] ++ d.drop (i + 1)))))

/-- DomainFuzz.__subdomain (lines 644-654): insert a dot at positions
1..len-4 (range(1, len-3)) when neither surrounding character is a hyphen
or a dot. -/
def subdomainStrat (d : Str) : List Str :=
  (List.range' 1 (d.length - 4)).filterMap (fun i =>
    if d.getD i default ∉ ['-', '.'] ∧ d.getD (i - 1) default ∉ ['-', '.'] then
      some (d.take i ++ ['.'] ++ d.drop i)
    else none)

/-- DomainFuzz.__transposition (lines 656-668): swap each adjacent pair of
distinct characters, via the source's slice expression. -/
def transpositionStrat (d : Str) : List Str :=
  (List.range (d.length - 1)).filterMap (fun i =>
    if d.getD (i + 1) default ≠ d.getD i default then
      some (d.take i ++ [d.getD (i + 1) default, d.getD i default] ++ d.drop (i + 2))
    else none)

/-- The vowels of __vowel_swap. -/
def vowels : Str := "aeiou".data

/-- DomainFuzz.__vowel_swap (lines 670-679): at each vowel position, place
every vowel (the unchanged input itself is emitted and removed later by the
final filter). -/
def vowelSwapStrat (d : Str) : List Str :=
  pyDedup ((List.range d.length).flatMap (fun i =>
    vowels.filterMap (fun v =>
      if d.getD i default ∈ vowels then some (d.take i ++ [v] ++ d.drop (i + 1))
      else none)))

/-- DomainFuzz.__addition (lines 681-687): append each of the 26 lowercase
letters. -/
def additionStrat (d : Str) : List Str :=
  (List.range' 97 26).map (fun o => d ++ [Char.ofNat o])

/-- One candidate record as produced by the generator. -/
structure Entry where
  fuzzer : Str
  name : Str
deriving DecidableEq, Repr

/-- Reassembly ".".join(filter(None, [subdomain, domain, tld])). -/
def reassemble (sub d tld : Str) : Str :=
  List.intercalate ['.'] (([sub, d, tld]).filter (fun s => s ≠ []))

/-- Tagging of one strategy's output list. -/
def mkEntries (tag : String) (sub tld : Str) (ds : List Str) : List Entry :=
  ds.map (fun d => ⟨tag.data, reassemble sub d tld⟩)

/-- The Various entries (lines 799-822); these are built without the
subdomain. -/
def variousEntries (d tld : Str) : List Entry :=
  (if '.' ∈ tld then
    [⟨"Various".data, d ++ ['.'] ++ ((splitOnPred (· = '.') tld).getLastD [])⟩,
     ⟨"Various".data, d ++ tld⟩]
   else []) ++
  (if '.' ∉ tld then [⟨"Various".data, d ++ tld ++ ['.'] ++ tld⟩] else []) ++
  (if tld ≠ "com".data ∧ '.' ∉ tld then
    [⟨"Various".data, d ++ ['-'] ++ tld ++ ".com".data⟩]
   else [])

/-- Entries appended by the strategy loops of generate (lines 699-822), in
source order. -/
def stratEntries (sub d tld : Str) : List Entry :=
  mkEntries "Addition" sub tld (additionStrat d) ++
     mkEntries "Bitsquatting" sub tld (bitsquattingStrat d) ++
     mkEntries "Homoglyph" sub tld (homoglyphStrat d) ++
     mkEntries "Hyphenation" sub tld (hyphenationStrat d) ++
     mkEntries "Insertion" sub tld (insertionStrat d) ++
     mkEntries "Omission" sub tld (omissionStrat d) ++
     mkEntries "Repetition" sub tld (repetitionStrat d) ++
     mkEntries "Replacement" sub tld (replacementStrat d) ++
     mkEntries "Subdomain" sub tld (subdomainStrat d) ++
     mkEntries "Transposition" sub tld (transpositionStrat d) ++
     mkEntries "Vowel-swap" sub tld (vowelSwapStrat d) ++
     variousEntries d tld

/-- DomainFuzz.generate before the final filter (lines 689-822): the
Original* entry followed by every strategy's entries in source order. -/
def generateRaw (sub d tld : Str) : List Entry :=
  ⟨"Original*".data, reassemble sub d tld⟩ :: stratEntries sub d tld

/-- Trailing-newline stripping performed by the non-MULTILINE dollar anchor
of the validation regex. -/
def dropTrailNl (s : Str) : Str := if s.getLast? = some '\n' then s.dropLast else s

/-- One inner label of the validation regex, (?!-)[a-zA-Z0-9-]{1,63}(?<!-). -/
def fuzzLabelOk (l : Str) : Bool :=
  decide (1 ≤ l.length) && decide (l.length ≤ 63) &&
    l.all (fun c => isAlnumCh c || c = '-') &&
    decide (l.headD '-' ≠ '-') && decide (l.getLastD '-' ≠ '-')

/-- The final label of the validation regex, [a-zA-Z]{2,63}. -/
def fuzzTldOk (l : Str) : Bool :=
  decide (2 ≤ l.length) && decide (l.length ≤ 63) && l.all isLetterCh

/-- The DomainFuzz.__validate_domain regex
(?=^.{4,253}$)(^((?!-)[a-zA-Z0-9-]{1,63}(?<!-)\.)+[a-zA-Z]{2,63}\.?$):
the lookahead bounds the length between 4 and 253 (the dot metacharacter
excludes newlines, the dollar allows one trailing newline), and the body
requires one or more inner labels, a final letter label, and at most one
trailing dot. -/
def fuzzRegexOk (s0 : Str) : Bool :=
  let s := dropTrailNl s0
  let chunks0 := splitOnPred (· = '.') s
  let chunks := if chunks0.getLastD [] = [] then chunks0.dropLast else chunks0
  decide (4 ≤ s.length) && decide (s.length ≤ 253) && decide ('\n' ∉ s) &&
    decide (chunks.dropLast ≠ []) && chunks.dropLast.all fuzzLabelOk &&
    fuzzTldOk (chunks.getLastD [])

/-- DomainFuzz.__validate_domain (lines 424-437): IDNA-encode (UnicodeError
rejects), reject a same-length-but-different encoding, then match the
regex against the encoded form. -/
def validateDomain (domain : Str) : Bool :=
  match encodeIdna domain with
  | none => false
  | some di =>
    if domain.length = di.length ∧ domain ≠ di then false
    else fuzzRegexOk di

/-- DomainFuzz.__filter_domains (lines 439-453): one pass keeping entries
whose name validates and has not been seen, recording seen names. -/
def filterDomainsAux (seen : List Str) : List Entry → List Entry
  | [] => []
  | e :: rest =>
    if validateDomain e.name = true ∧ e.name ∉ seen then
      e :: filterDomainsAux (e.name :: seen) rest
    else filterDomainsAux seen rest

/-- The whole filter, started with an empty seen set. -/
def filterDomains (l : List Entry) : List Entry := filterDomainsAux [] l

/-- DomainFuzz.generate (lines 689-824): all strategies then the filter. -/
def generate (sub d tld : Str) : List Entry := filterDomains (generateRaw sub d tld)

end DomainFuzz

namespace DomainDict

/-- DomainDict.__dictionary (lines 839-848): the four word combinations per
dictionary word, in source order. -/
def dictionaryStrat (d : Str) (dict : List Str) : List Str :=
  dict.flatMap (fun w => [d ++ ['-'] ++ w, d ++ w, w ++ ['-'] ++ d, w ++ d])

/-- DomainDict.generate (lines 850-859): Dictionary entries appended with no
validation and no de-duplication (the overridden generate never calls
__filter_domains). -/
def generate (sub d tld : Str) (dict : List Str) : List DomainFuzz.Entry :=
  (dictionaryStrat d dict).map (fun x => ⟨"Dictionary".data, DomainFuzz.reassemble sub x tld⟩)

end DomainDict

namespace TldDict

/-- TldDict.generate (lines 862-874): drop the first occurrence of the own
TLD from the word list, then swap the TLD for each entry; again unfiltered. -/
def generate (sub d tld : Str) (dict : List Str) : List DomainFuzz.Entry :=
  (dict.erase tld).map (fun t => ⟨"TLD-swap".data, DomainFuzz.reassemble sub d t⟩)

end TldDict

/-- Candidate list assembled by main() (lines 1287-1307): the fuzzer output
followed by the unfiltered dictionary expander output. -/
def mainDomainsWithDict (sub d tld : Str) (dict : List Str) : List DomainFuzz.Entry :=
  DomainFuzz.generate sub d tld ++ DomainDict.generate sub d tld dict

namespace DomainThread

/-- The !ServFail sentinel. -/
def servFail : Str := "!ServFail".data

/-- A candidate record as mutated by a worker; none marks an absent key. -/
structure DRecord where
  fuzzer : Str
  name : Str
  dnsA : Option (List Str) := none
  dnsAAAA : Option (List Str) := none
  dnsNS : Option (List Str) := none
  dnsMX : Option (List Str) := none
  mxSpy : Option Bool := none
  whoisCreated : Option Str := none
  whoisUpdated : Option Str := none
  geoipCountry : Option Str := none
  bannerHttp : Option Str := none
  bannerSmtp : Option Str := none
  ssdeepScore : Option Int := none
deriving DecidableEq, Repr

/-- Outcome of one dns.resolver query: an answer list, NXDOMAIN,
NoNameservers (all nameservers failed), or any other DNSException. -/
inductive DnsOutcome where
  | ok (answers : List Str)
  | nxdomain
  | noNameservers
  | dnsError
deriving DecidableEq, Repr

/-- Outcome of socket.getaddrinfo: address strings, gaierror with errno -3,
any other gaierror, or any other exception. -/
inductive GaiOutcome where
  | ok (addrs : List Str)
  | gaiAgain
  | gaiOther
  | otherError
deriving DecidableEq, Repr

/-- Environment of one candidate: the outcomes the network would give to
each probe.  The banner, relay, whois, geoip and ssdeep helpers catch all
their own exceptions (lines 897-946, 1074-1083, 1088-1094, 1110-1124), so
their behaviour is fully described by their returned outcome. -/
structure ProbeEnv where
  ns : DnsOutcome
  a : DnsOutcome
  aaaa : DnsOutcome
  mx : DnsOutcome
  gai : GaiOutcome
  mxRelayOk : Bool
  whoisRes : Option (Str × Str)
  geoipRes : Option (Option Str)
  httpBanner : Option Str
  smtpBanner : Option Str
  ssdeepFetch : Option (Nat × Int)
deriving DecidableEq, Repr

/-- Capability flags and read-only fields of a worker. -/
structure WorkerOpts where
  extdns : Bool
  geoip : Bool
  whois : Bool
  ssdeep : Bool
  banners : Bool
  mxcheck : Bool
  domainOrig : Str
deriving DecidableEq, Repr

/-- The five DNS status locals of run(); none models a Python local that has
never been assigned, whose read raises UnboundLocalError. -/
structure RunLocals where
  nxdomain : Option Bool := none
  dns_ns : Option Bool := none
  dns_a : Option Bool := none
  dns_aaaa : Option Bool := none
  dns_mx : Option Bool := none
deriving DecidableEq, Repr

/-- Reading a Python local. -/
def readLocal (v : Option Bool) : Except PyExc Bool :=
  match v with
  | none => Except.error PyExc.unboundLocal
  | some b => Except.ok b

/-- Reading a dict key, domain["dns-..."], raising KeyError when absent. -/
def readKey (v : Option (List Str)) : Except PyExc (List Str) :=
  match v with
  | none => Except.error PyExc.keyError
  | some l => Except.ok l

/-- Indexing [0], raising IndexError when empty. -/
def index0 (l : List Str) : Except PyExc Str :=
  match l.head? with
  | none => Except.error PyExc.indexError
  | some x => Except.ok x

/-- DomainThread.answer_to_list (lines 951-962): strip dots from one-token
answers, else take the second token (the MX exchange) and strip its dots;
sort the result. -/
def answerToList (answers : List Str) : List Str :=
  sortStrs (answers.map (fun r =>
    if (splitOnPred (· = ' ') r).length = 1 then stripChar '.' r
    else stripChar '.' ((splitOnPred (· = ' ') r).getD 1 [])))

/-- DNS record types a worker can query. -/
inductive QType where
  | NS
  | A
  | AAAA
  | MX
deriving DecidableEq, Repr

/-- The resolver block of run() (lines 986-1041) for a worker with the full
resolver capability: locals initialised to False; the NS query always
issued, setting nxdomain on NXDOMAIN, the sentinel on NoNameservers and
nothing on other errors; A and AAAA issued when nxdomain is false; MX
issued when nxdomain is false and the NS query succeeded.  Returns the
record, the locals, and the list of issued queries in order. -/
def dnsResolveBlock (env : ProbeEnv) (rec0 : DRecord) :
    DRecord × RunLocals × List QType :=
  let l0 : RunLocals :=
    { nxdomain := some false, dns_ns := some false, dns_a := some false,
      dns_aaaa := some false, dns_mx := some false }
  let s1 : DRecord × RunLocals :=
    match env.ns with
    | DnsOutcome.ok ans => ({rec0 with dnsNS := some (answerToList ans)}, {l0 with dns_ns := some true})
    | DnsOutcome.nxdomain => (rec0, {l0 with nxdomain := some true})
    | DnsOutcome.noNameservers => ({rec0 with dnsNS := some [servFail]}, l0)
    | DnsOutcome.dnsError => (rec0, l0)
  let s2 : DRecord × RunLocals :=
    if s1.2.nxdomain = some false then
      let sA : DRecord × RunLocals :=
        match env.a with
        | DnsOutcome.ok ans => ({s1.1 with dnsA := some (answerToList ans)}, {s1.2 with dns_a := some true})
        | DnsOutcome.noNameservers => ({s1.1 with dnsA := some [servFail]}, s1.2)
        | _ => s1
      match env.aaaa with
      | DnsOutcome.ok ans => ({sA.1 with dnsAAAA := some (answerToList ans)}, {sA.2 with dns_aaaa := some true})
      | DnsOutcome.noNameservers => ({sA.1 with dnsAAAA := some [servFail]}, sA.2)
      | _ => sA
    else s1
  let s3 : DRecord × RunLocals :=
    if s2.2.nxdomain = some false ∧ s2.2.dns_ns = some true then
      match env.mx with
      | DnsOutcome.ok ans => ({s2.1 with dnsMX := some (answerToList ans)}, {s2.2 with dns_mx := some true})
      | DnsOutcome.noNameservers => ({s2.1 with dnsMX := some [servFail]}, s2.2)
      | _ => s2
    else s2
  let trace :=
    [QType.NS] ++
      (if s1.2.nxdomain = some false then [QType.A, QType.AAAA] else []) ++
      (if s2.2.nxdomain = some false ∧ s2.2.dns_ns = some true then [QType.MX] else [])
  (s3.1, s3.2, trace)

/-- The getaddrinfo fallback block of run() (lines 1042-1062) for a worker
without the resolver capability.  Note that none of the five status
locals is initialised on this path: the failure branches leave them all
unassigned, and the success branch assigns only dns_a and dns_aaaa. -/
def gaiBlock (env : ProbeEnv) (rec0 : DRecord) : DRecord × RunLocals :=
  match env.gai with
  | GaiOutcome.gaiAgain => ({rec0 with dnsA := some [servFail]}, {})
  | GaiOutcome.gaiOther => (rec0, {})
  | GaiOutcome.otherError => (rec0, {})
  | GaiOutcome.ok addrs =>
    ({rec0 with
        dnsA := some (sortStrs (addrs.filter (fun s => '.' ∈ s))),
        dnsAAAA := some (sortStrs (addrs.filter (fun s => ':' ∈ s)))},
     {dns_a := some true, dns_aaaa := some true})

/-- Python object identity at line 1066: line 972 rebinds domain-name to a
string freshly created by encode/decode, so the `is not` comparison with
domain_orig is true regardless of the string values.  Modelled by a
constantly true gate. -/
def nameIsNotOrigObj (_nm _orig : Str) : Bool := true

/-- One iteration of DomainThread.run (lines 964-1133) on one dequeued
candidate, starting from the worker's initial state (every status local
unassigned; on the non-extdns path the source never assigns nxdomain,
dns_ns or dns_mx, so for those locals this models every iteration).  The
result is the mutated record and the DNS query trace, or the Python
exception that propagates out of run. -/
def processCandidate (o : WorkerOpts) (env : ProbeEnv) (job : DRecord) :
    Except PyExc (DRecord × List QType) := do
  let nm ←
    match encodeIdna job.name with
    | none => Except.error PyExc.unicodeError
    | some s => Except.ok s
  let s1 : DRecord := {job with name := nm}
  let dns :=
    if o.extdns then dnsResolveBlock env s1
    else
      let g := gaiBlock env s1
      (g.1, g.2, ([] : List QType))
  let s2 := dns.1
  let lcl := dns.2.1
  let trace := dns.2.2
  let s3 ←
    if o.mxcheck then do
      let dmx ← readLocal lcl.dns_mx
      if dmx = true then
        if nameIsNotOrigObj s2.name o.domainOrig then do
          let mxl ← readKey s2.dnsMX
          let _mx0 ← index0 mxl
          if env.mxRelayOk then pure {s2 with mxSpy := some true} else pure s2
        else pure s2
      else pure s2
    else pure s2
  let s4 ←
    if o.whois then do
      let nx ← readLocal lcl.nxdomain
      let cond ← if nx = false then readLocal lcl.dns_ns else pure false
      if cond = true then
        match env.whoisRes with
        | some cu => pure {s3 with whoisCreated := some cu.1, whoisUpdated := some cu.2}
        | none => pure s3
      else pure s3
    else pure s3
  let s5 ←
    if o.geoip then do
      let da ← readLocal lcl.dns_a
      if da = true then
        match s4.dnsA with
        | none => pure s4
        | some l =>
          match l.head? with
          | none => pure s4
          | some _ip =>
            match env.geoipRes with
            | none => pure s4
            | some none => pure s4
            | some (some country) =>
              if country ≠ [] then
                pure {s4 with geoipCountry := some ((splitOnPred (· = ',') country).headD [])}
              else pure s4
      else pure s4
    else pure s4
  let s6 ←
    if o.banners then do
      let da ← readLocal lcl.dns_a
      let cond ← if da = true then pure true else readLocal lcl.dns_aaaa
      let sB ←
        if cond = true then do
          let al ← readKey s5.dnsA
          let _ip ← index0 al
          match env.httpBanner with
          | some b => if b ≠ [] then pure {s5 with bannerHttp := some b} else pure s5
          | none => pure s5
        else pure s5
      let dmx ← readLocal lcl.dns_mx
      if dmx = true then do
        let ml ← readKey sB.dnsMX
        let _m0 ← index0 ml
        match env.smtpBanner with
        | some b => if b ≠ [] then pure {sB with bannerSmtp := some b} else pure sB
        | none => pure sB
      else pure sB
    else pure s5
  let s7 ←
    if o.ssdeep then do
      let da ← readLocal lcl.dns_a
      let cond ← if da = true then pure true else readLocal lcl.dns_aaaa
      if cond = true then
        match env.ssdeepFetch with
        | none => pure s6
        | some st => if st.1 / 100 = 2 then pure {s6 with ssdeepScore := some st.2} else pure s6
      else pure s6
    else pure s6
  let nm2 ←
    match decodeIdna s7.name with
    | none => Except.error PyExc.unicodeError
    | some s => Except.ok s
  pure ({s7 with name := nm2}, trace)

end DomainThread

/-! Claim-side definitions: formulations written from the wording of the
specification claims (and their amended versions), to be compared with the
source-derived definitions above. -/

/-- Adjacent swap at position i as a recursive function; identity outside
the string.  Used by the C9 claim to state the involution. -/
def swapAt : Str → Nat → Str
  | c :: e :: rest, 0 => e :: c :: rest
  | c :: rest, Nat.succ i => c :: swapAt rest i
  | s, _ => s

/-- Helper for the doubled-hyphen test: scan with the previous character. -/
def noDoubleHyphenGo (prev : Char) : Str → Bool
  | [] => true
  | c :: rest => !(prev = '-' && c = '-') && noDoubleHyphenGo c rest

/-- True when the string has no two adjacent hyphens. -/
def noDoubleHyphen : Str → Bool
  | [] => true
  | c :: rest => noDoubleHyphenGo c rest

/-- Character-wise label form used by the amended C8 claim: nonempty,
letters-digits-hyphen only (letters of either case together with the sre
IGNORECASE case-equivalents), no leading hyphen, no trailing hyphen, no
doubled hyphen. -/
def ldhLabelOk (l : Str) : Bool :=
  decide (l ≠ []) && l.all (fun c => matchAlnumCI c || c = '-') &&
    decide (l.headD '-' ≠ '-') && decide (l.getLastD '-' ≠ '-') && noDoubleHyphen l

/-- The syntactic form stated by claim C8: total length at most 253, every
label of 1 to 63 letters-digits-hyphen characters with no leading or
trailing hyphen, and a trailing TLD label of at least 2 letters. -/
def c8ClaimForm (domain : Str) : Bool :=
  decide (domain.length ≤ 253) &&
    (let chunks := splitOnPred (· = '.') domain
     decide (chunks.dropLast ≠ []) &&
       chunks.dropLast.all (fun l =>
         decide (1 ≤ l.length) && decide (l.length ≤ 63) &&
           l.all (fun c => isAlnumCh c || c = '-') &&
           decide (l.headD '-' ≠ '-') && decide (l.getLastD '-' ≠ '-')) &&
       decide (2 ≤ (chunks.getLastD []).length) && (chunks.getLastD []).all isLetterCh)

/-- The amended C8 form: total length at most 255 (counted before removing
an optional trailing dot); after removing one trailing dot, one or more
non-final labels in character-wise LDH form with no doubled hyphen and no
length bound, then a final label of at least 2 letters, where letters are
of either case together with the sre IGNORECASE case-equivalents. -/
def c8AmendedForm (domain0 : Str) : Bool :=
  decide (domain0.length ≤ 255) &&
    (let domain := if domain0.getLastD ' ' = '.' then domain0.dropLast else domain0
     let chunks := splitOnPred (· = '.') domain
     decide (chunks.dropLast ≠ []) && chunks.dropLast.all ldhLabelOk &&
       decide (2 ≤ (chunks.getLastD []).length) && (chunks.getLastD []).all matchAlphaCI)

/-- The Subdomain rule stated by claim C7: a dot inserted at every interior
position i with 1 ≤ i ≤ len-1 whose two neighbours are neither hyphen nor
dot. -/
def c7SpecSubdomain (d : Str) : List Str :=
  (List.range' 1 (d.length - 1)).filterMap (fun i =>
    if d.getD i default ∉ ['-', '.'] ∧ d.getD (i - 1) default ∉ ['-', '.'] then
      some (d.take i ++ ['.'] ++ d.drop i)
    else none)

/-- Worker options for the C1 evidence: resolver capability absent, mxcheck
enabled. -/
def c1OptsMx : DomainThread.WorkerOpts :=
  { extdns := false, geoip := false, whois := false, ssdeep := false,
    banners := false, mxcheck := true, domainOrig := "example.com".data }

/-- Probe outcomes for the C1 evidence: getaddrinfo succeeds with one IPv4
address. -/
def c1EnvGai : DomainThread.ProbeEnv :=
  { ns := DomainThread.DnsOutcome.dnsError, a := DomainThread.DnsOutcome.dnsError,
    aaaa := DomainThread.DnsOutcome.dnsError, mx := DomainThread.DnsOutcome.dnsError,
    gai := DomainThread.GaiOutcome.ok ["93.184.216.34".data],
    mxRelayOk := false, whoisRes := none, geoipRes := none,
    httpBanner := none, smtpBanner := none, ssdeepFetch := none }

/-- A dequeued candidate record for the C1 evidence. -/
def c1Job : DomainThread.DRecord :=
  { fuzzer := "Original*".data, name := "example.com".data }

/-- Worker options for the second C1 evidence: resolver present, banners
enabled. -/
def c1OptsBan : DomainThread.WorkerOpts :=
  { extdns := true, geoip := false, whois := false, ssdeep := false,
    banners := true, mxcheck := false, domainOrig := "example.com".data }

/-- Probe outcomes for the second C1 evidence: NS and AAAA resolve while the
A query fails with a plain DNSException, so no dns-a key is written. -/
def c1EnvAaaa : DomainThread.ProbeEnv :=
  { ns := DomainThread.DnsOutcome.ok ["ns1.example.com".data],
    a := DomainThread.DnsOutcome.dnsError,
    aaaa := DomainThread.DnsOutcome.ok ["2606:2800:220:1:248:1893:25c8:1946".data],
    mx := DomainThread.DnsOutcome.dnsError,
    gai := DomainThread.GaiOutcome.otherError,
    mxRelayOk := false, whoisRes := none, geoipRes := none,
    httpBanner := none, smtpBanner := none, ssdeepFetch := none }

/-- Worker options for the C6 evidence: resolver and mxcheck enabled. -/
def c6Opts : DomainThread.WorkerOpts :=
  { extdns := true, geoip := false, whois := false, ssdeep := false,
    banners := false, mxcheck := true, domainOrig := "example.com".data }

/-- Probe outcomes for the C6 evidence: NS, A and MX resolve and the MX
relay sequence succeeds. -/
def c6Env : DomainThread.ProbeEnv :=
  { ns := DomainThread.DnsOutcome.ok ["ns1.example.com".data],
    a := DomainThread.DnsOutcome.ok ["93.184.216.34".data],
    aaaa := DomainThread.DnsOutcome.dnsError,
    mx := DomainThread.DnsOutcome.ok ["10 mail.example.com".data],
    gai := DomainThread.GaiOutcome.otherError,
    mxRelayOk := true, whoisRes := none, geoipRes := none,
    httpBanner := none, smtpBanner := none, ssdeepFetch := none }

/-- The candidate for the C6 evidence: the Original* record, whose
domain-name equals the worker's original domain. -/
def c6Job : DomainThread.DRecord :=
  { fuzzer := "Original*".data, name := "example.com".data }

/-- Probe outcomes for the C5 witness: the NS query answers NXDOMAIN. -/
def c5EnvNx : DomainThread.ProbeEnv :=
  { ns := DomainThread.DnsOutcome.nxdomain, a := DomainThread.DnsOutcome.dnsError,
    aaaa := DomainThread.DnsOutcome.dnsError, mx := DomainThread.DnsOutcome.dnsError,
    gai := DomainThread.GaiOutcome.otherError,
    mxRelayOk := false, whoisRes := none, geoipRes := none,
    httpBanner := none, smtpBanner := none, ssdeepFetch := none }

/-- The candidate record for the C5 witness. -/
def c5Rec : DomainThread.DRecord :=
  { fuzzer := "Addition".data, name := "examplea.com".data }

/-! Theorems.  Helper lemmas first, then one theorem per specification
claim (with witnesses and counterexamples where applicable). -/

theorem filterAux_sublist (l : List DomainFuzz.Entry) :
    ∀ seen, List.Sublist (DomainFuzz.filterDomainsAux seen l) l := by
  induction l with
  | nil => intro seen; simp [DomainFuzz.filterDomainsAux]
  | cons x rest ih =>
    intro seen
    simp only [DomainFuzz.filterDomainsAux]
    by_cases hc : DomainFuzz.validateDomain x.name = true ∧ x.name ∉ seen
    · rw [if_pos hc]
      exact List.Sublist.cons₂ x (ih (x.name :: seen))
    · rw [if_neg hc]
      exact List.Sublist.cons x (ih seen)

theorem filterAux_spec (l : List DomainFuzz.Entry) :
    ∀ seen,
      ((DomainFuzz.filterDomainsAux seen l).map (fun e => e.name)).Nodup ∧
      (∀ e ∈ DomainFuzz.filterDomainsAux seen l,
        DomainFuzz.validateDomain e.name = true ∧ e.name ∉ seen) := by
  induction l with
  | nil => intro seen; simp [DomainFuzz.filterDomainsAux]
  | cons x rest ih =>
    intro seen
    simp only [DomainFuzz.filterDomainsAux]
    by_cases hc : DomainFuzz.validateDomain x.name = true ∧ x.name ∉ seen
    · rw [if_pos hc]
      obtain ⟨ihn, ihm⟩ := ih (x.name :: seen)
      refine ⟨?_, ?_⟩
      · simp only [List.map_cons, List.nodup_cons]
        refine ⟨?_, ihn⟩
        intro hmem
        obtain ⟨e, he, hname⟩ := List.mem_map.mp hmem
        have h2 := (ihm e he).2
        rw [hname] at h2
        exact h2 (List.mem_cons_self _ _)
      · intro e he
        rcases List.mem_cons.mp he with rfl | he'
        · exact hc
        · obtain ⟨h1, h2⟩ := ihm e he'
          exact ⟨h1, fun hs => h2 (List.mem_cons_of_mem _ hs)⟩
    · rw [if_neg hc]
      exact ih seen

theorem mkEntries_fuzzer {tag : String} {sub tld : Str} {ds : List Str}
    {e : DomainFuzz.Entry} (he : e ∈ DomainFuzz.mkEntries tag sub tld ds) :
    e.fuzzer = tag.data := by
  obtain ⟨d, _, rfl⟩ := List.mem_map.mp he
  rfl

theorem variousEntries_fuzzer {d tld : Str} {e : DomainFuzz.Entry}
    (he : e ∈ DomainFuzz.variousEntries d tld) : e.fuzzer = "Various".data := by
  simp only [DomainFuzz.variousEntries, List.mem_append] at he
  rcases he with (h | h) | h
  · split at h
    · simp only [List.mem_cons, List.not_mem_nil, or_false] at h
      rcases h with rfl | rfl <;> rfl
    · exact absurd h (List.not_mem_nil e)
  · split at h
    · simp only [List.mem_cons, List.not_mem_nil, or_false] at h
      subst h
      rfl
    · exact absurd h (List.not_mem_nil e)
  · split at h
    · simp only [List.mem_cons, List.not_mem_nil, or_false] at h
      subst h
      rfl
    · exact absurd h (List.not_mem_nil e)

theorem stratEntries_fuzzer {sub d tld : Str} {e : DomainFuzz.Entry}
    (he : e ∈ DomainFuzz.stratEntries sub d tld) : ¬ e.fuzzer = "Original*".data := by
  simp only [DomainFuzz.stratEntries, List.mem_append, or_assoc] at he
  rcases he with h | h | h | h | h | h | h | h | h | h | h | h
  · rw [mkEntries_fuzzer h]; decide
  · rw [mkEntries_fuzzer h]; decide
  · rw [mkEntries_fuzzer h]; decide
  · rw [mkEntries_fuzzer h]; decide
  · rw [mkEntries_fuzzer h]; decide
  · rw [mkEntries_fuzzer h]; decide
  · rw [mkEntries_fuzzer h]; decide
  · rw [mkEntries_fuzzer h]; decide
  · rw [mkEntries_fuzzer h]; decide
  · rw [mkEntries_fuzzer h]; decide
  · rw [mkEntries_fuzzer h]; decide
  · rw [variousEntries_fuzzer h]; decide

theorem filterAux_cons (seen : List Str) (e : DomainFuzz.Entry)
    (rest : List DomainFuzz.Entry) :
    DomainFuzz.filterDomainsAux seen (e :: rest) =
      if DomainFuzz.validateDomain e.name = true ∧ e.name ∉ seen then
        e :: DomainFuzz.filterDomainsAux (e.name :: seen) rest
      else DomainFuzz.filterDomainsAux seen rest := rfl

theorem generate_unfold (sub d tld : Str) :
    DomainFuzz.generate sub d tld =
      DomainFuzz.filterDomainsAux []
        ((⟨"Original*".data, DomainFuzz.reassemble sub d tld⟩ : DomainFuzz.Entry) ::
          DomainFuzz.stratEntries sub d tld) := by
  show DomainFuzz.filterDomainsAux [] (DomainFuzz.generateRaw sub d tld) = _
  simp only [DomainFuzz.generateRaw]

/-- C2 counterexample: for the registrable 0- (length 2 over [a-z0-9-],
with empty subdomain and the valid TLD com), the reassembled domain 0-.com
fails the generator's validator (trailing hyphen in a label), so the
filtered output of generate contains no Original* entry at all, refuting
the claim that it always contains exactly one. -/
theorem c2_counterexample :
    ((DomainFuzz.generate "".data "0-".data "com".data).countP
      (fun e => e.fuzzer = "Original*".data)) = 0 := by decide

/-- C2 (amended): for every input triple whose reassembled domain passes
the generator's syntactic validator, generate terminates and its output
contains exactly one entry tagged Original*, whose domain-name equals the
reassembled input, and that entry is at index 0. -/
theorem c2_amended (sub d tld : Str)
    (h : DomainFuzz.validateDomain (DomainFuzz.reassemble sub d tld) = true) :
    (DomainFuzz.generate sub d tld).head? =
        some ⟨"Original*".data, DomainFuzz.reassemble sub d tld⟩ ∧
    (DomainFuzz.generate sub d tld).countP
        (fun e => e.fuzzer = "Original*".data) = 1 := by
  have hstep : DomainFuzz.generate sub d tld =
      (⟨"Original*".data, DomainFuzz.reassemble sub d tld⟩ : DomainFuzz.Entry) ::
        DomainFuzz.filterDomainsAux [DomainFuzz.reassemble sub d tld]
          (DomainFuzz.stratEntries sub d tld) := by
    rw [generate_unfold, filterAux_cons, if_pos ⟨h, List.not_mem_nil _⟩]
  have hzero : (DomainFuzz.stratEntries sub d tld).countP
      (fun e => e.fuzzer = "Original*".data) = 0 := by
    rw [List.countP_eq_zero]
    intro e he
    simpa using stratEntries_fuzzer he
  have hzero2 : (DomainFuzz.filterDomainsAux [DomainFuzz.reassemble sub d tld]
      (DomainFuzz.stratEntries sub d tld)).countP
      (fun e => e.fuzzer = "Original*".data) = 0 := by
    have hle := List.Sublist.countP_le (fun e => decide (e.fuzzer = "Original*".data))
      (filterAux_sublist (DomainFuzz.stratEntries sub d tld)
        [DomainFuzz.reassemble sub d tld])
    omega
  refine ⟨?_, ?_⟩
  · rw [hstep]; rfl
  · rw [hstep, List.countP_cons]
    simp [hzero2]

/-- C2 witness: the amended theorem applied at the concrete input
(subdomain empty, registrable 00, TLD com). -/
theorem c2_witness :
    DomainFuzz.validateDomain (DomainFuzz.reassemble "".data "00".data "com".data) = true ∧
    ((DomainFuzz.generate "".data "00".data "com".data).head? =
        some ⟨"Original*".data, DomainFuzz.reassemble "".data "00".data "com".data⟩ ∧
     (DomainFuzz.generate "".data "00".data "com".data).countP
        (fun e => e.fuzzer = "Original*".data) = 1) :=
  ⟨by decide, c2_amended "".data "00".data "com".data (by decide)⟩

/-- C3 counterexample: with registrable 00 and dictionary word a, the
Addition strategy and the Dictionary expander both produce 00a.com; the
expander appends without filtering, so the combined candidate list has two
entries whose (IDNA-normalised) names coincide. -/
theorem c3_counterexample :
    ¬ ((mainDomainsWithDict "".data "00".data "com".data ["a".data]).map
        (fun e => encodeIdna e.name)).Nodup := by decide

/-- C3 (amended): in the list produced by DomainFuzz.generate itself, the
stored domain-name values are pairwise distinct and every entry passes the
syntactic validator; the Dictionary/TLD expander entries are appended
without this filtering and may duplicate or fail validation. -/
theorem c3_amended (sub d tld : Str) :
    ((DomainFuzz.generate sub d tld).map (fun e => e.name)).Nodup ∧
    ((DomainFuzz.generate sub d tld).all
      (fun e => DomainFuzz.validateDomain e.name)) = true := by
  obtain ⟨hn, hm⟩ := filterAux_spec (DomainFuzz.generateRaw sub d tld) []
  refine ⟨hn, ?_⟩
  rw [List.all_eq_true]
  intro e he
  exact (hm e he).1

/-- C4: in the output of DomainFuzz.generate, an entry whose domain-name
equals the reassembled original domain is the Original* entry; no strategy
entry with that name survives the final filter. -/
theorem c4_original_only (sub d tld : Str) (e : DomainFuzz.Entry)
    (he : e ∈ DomainFuzz.generate sub d tld)
    (hn : e.name = DomainFuzz.reassemble sub d tld) :
    e.fuzzer = "Original*".data := by
  rw [generate_unfold, filterAux_cons] at he
  split at he
  · rcases List.mem_cons.mp he with rfl | he2
    · rfl
    · exfalso
      have hspec := (filterAux_spec (DomainFuzz.stratEntries sub d tld) _).2 e he2
      exact hspec.2 (by rw [hn]; exact List.mem_cons_self _ _)
  · have hspec := (filterAux_spec (DomainFuzz.stratEntries sub d tld) []).2 e he
    have hval := hspec.1
    rw [hn] at hval
    rename_i hcond
    exact absurd ⟨hval, List.not_mem_nil _⟩ hcond

/-- C4 witness: the theorem applied to the Original* entry of the concrete
input 00.com. -/
theorem c4_witness :
    ((⟨"Original*".data, "00.com".data⟩ : DomainFuzz.Entry) ∈
        DomainFuzz.generate "".data "00".data "com".data) ∧
    (⟨"Original*".data, "00.com".data⟩ : DomainFuzz.Entry).fuzzer = "Original*".data :=
  ⟨by decide, c4_original_only "".data "00".data "com".data _ (by decide) (by decide)⟩

theorem filterMap_congr_mem {α β : Type} (l : List α) (f g : α → Option β)
    (h : ∀ a ∈ l, f a = g a) : l.filterMap f = l.filterMap g := by
  induction l with
  | nil => rfl
  | cons x xs ih =>
    have hx := h x (List.mem_cons_self _ _)
    simp only [List.filterMap_cons, hx, ih (fun a ha => h a (List.mem_cons_of_mem _ ha))]

/-- C7 counterexample: on the registrable abcd the source strategy loops
over range(1, 0), producing nothing, while the claimed rule (positions 1 to
len-1) produces three candidates. -/
theorem c7_counterexample :
    DomainFuzz.subdomainStrat "abcd".data = [] ∧
    c7SpecSubdomain "abcd".data = ["a.bcd".data, "ab.cd".data, "abc.d".data] := by
  exact ⟨by decide, by decide⟩

/-- C7 (amended): the Subdomain strategy returns exactly the insertions of
one dot at the interior positions i with 1 ≤ i ≤ len-4 (the source bound
range(1, len-3)) whose two neighbouring characters are neither hyphen nor
dot. -/
theorem c7_amended (d : Str) (x : Str) :
    x ∈ DomainFuzz.subdomainStrat d ↔
      ∃ i, 1 ≤ i ∧ i + 4 ≤ d.length ∧
        d.getD i default ∉ ['-', '.'] ∧ d.getD (i - 1) default ∉ ['-', '.'] ∧
        x = d.take i ++ ['.'] ++ d.drop i := by
  simp only [DomainFuzz.subdomainStrat, List.mem_filterMap, List.mem_range'_1]
  constructor
  · rintro ⟨i, ⟨h1, h2⟩, hif⟩
    split at hif
    · rename_i hcond
      refine ⟨i, h1, by omega, hcond.1, hcond.2, ?_⟩
      injection hif with h
      exact h.symm
    · exact absurd hif (by simp)
  · rintro ⟨i, h1, h2, hc1, hc2, rfl⟩
    refine ⟨i, ⟨h1, by omega⟩, ?_⟩
    rw [if_pos ⟨hc1, hc2⟩]

theorem swapAt_slice :
    ∀ (d : Str) (i : Nat), i + 1 < d.length →
      d.take i ++ [d.getD (i + 1) default, d.getD i default] ++ d.drop (i + 2) =
        swapAt d i := by
  intro d
  induction d with
  | nil => intro i h; simp at h
  | cons c rest ih =>
    intro i h
    cases i with
    | zero =>
      cases rest with
      | nil => simp at h
      | cons e r2 => simp [swapAt]
    | succ j =>
      have h2 : j + 1 < rest.length := by
        simp only [List.length_cons] at h
        omega
      simp only [swapAt, List.take_succ_cons, List.getD_cons_succ, List.drop_succ_cons,
        List.cons_append]
      rw [← ih j h2]

theorem swapAt_swapAt : ∀ (d : Str) (i : Nat), swapAt (swapAt d i) i = d := by
  intro d
  induction d with
  | nil => intro i; cases i <;> rfl
  | cons c rest ih =>
    intro i
    cases i with
    | zero =>
      cases rest with
      | nil => rfl
      | cons e r2 => rfl
    | succ j =>
      simp only [swapAt]
      rw [ih j]

/-- C9: the Transposition strategy returns exactly the adjacent swaps of
distinct character pairs (pairs of equal adjacent characters contribute
nothing, the none branch), and the swap is an involution at every visited
position. -/
theorem c9_transposition (d : Str) :
    DomainFuzz.transpositionStrat d =
      (List.range (d.length - 1)).filterMap (fun i =>
        if d.getD i default ≠ d.getD (i + 1) default then some (swapAt d i) else none) ∧
    (∀ i, swapAt (swapAt d i) i = d) := by
  constructor
  · apply filterMap_congr_mem
    intro i hi
    have hlen : i + 1 < d.length := by
      have := List.mem_range.mp hi
      omega
    have hs := swapAt_slice d i hlen
    exact if_congr ne_comm (by rw [hs]) rfl
  · intro i
    exact swapAt_swapAt d i

theorem parse_nomatch {url : Str} (hm : UrlParser.rfcMatch url = none) :
    UrlParser.parse url = Except.ok ⟨url, [], [], [], [], []⟩ := by
  unfold UrlParser.parse
  rw [hm]

theorem parse_auth_empty {url : Str} {m : UrlParser.UriParts}
    (hm : UrlParser.rfcMatch url = some m) (ha : m.authority = []) :
    UrlParser.parse url = Except.ok ⟨url,
      (if m.scheme ≠ [] then
        (if "http".data.isPrefixOf m.scheme then m.scheme else "http".data) else []),
      [], [],
      (if m.path ≠ [] then m.path else []),
      (if m.query ≠ [] then '?' :: m.query else [])⟩ := by
  unfold UrlParser.parse
  rw [hm]
  dsimp only
  rw [if_neg (fun hc => hc ha)]

theorem parse_error_authority {url : Str} {e : PyExc}
    (he : UrlParser.parse url = Except.error e) :
    ∃ m, UrlParser.rfcMatch url = some m ∧ m.authority ≠ [] := by
  unfold UrlParser.parse at he
  cases hm : UrlParser.rfcMatch url with
  | none =>
    rw [hm] at he
    exact Except.noConfusion he
  | some m =>
    rw [hm] at he
    dsimp only at he
    by_cases ha : m.authority = []
    · rw [if_neg (fun hc => hc ha)] at he
      dsimp only at he
      exact Except.noConfusion he
    · exact ⟨m, rfl, ha⟩

theorem parse_dichotomy (url : Str) :
    ((((UrlParser.rfcMatch url).map (fun m => m.authority)).getD [] = []) →
      ∃ r, UrlParser.parse url = Except.ok r ∧ r.domain = []) ∧
    (∀ e, UrlParser.parse url = Except.error e →
      ((UrlParser.rfcMatch url).map (fun m => m.authority)).getD [] ≠ []) := by
  cases hm : UrlParser.rfcMatch url with
  | none =>
    constructor
    · intro _
      exact ⟨_, parse_nomatch hm, rfl⟩
    · intro e he
      rw [parse_nomatch hm] at he
      exact Except.noConfusion he
  | some m =>
    simp only [Option.map_some', Option.getD_some]
    constructor
    · intro hempty
      exact ⟨_, parse_auth_empty hm hempty, rfl⟩
    · intro e he
      obtain ⟨m2, hm2, hne⟩ := parse_error_authority he
      rw [hm] at hm2
      cases hm2
      exact hne

/-- C10: when the RFC 3986 regex yields an empty authority (for example for
the empty input, turned into http:// first), UrlParser raises nothing and
the domain field stays empty; the domain-invalid error can only arise from
a non-empty authority. -/
theorem c10_empty_authority (input : Str) :
    (UrlParser.parsedAuthorityOf input = [] →
      ∃ r, UrlParser.init input = Except.ok r ∧ r.domain = []) ∧
    (∀ e, UrlParser.init input = Except.error e →
      UrlParser.parsedAuthorityOf input ≠ []) :=
  parse_dichotomy
    (if ¬ (isSubstr "://".data input = true) then "http://".data ++ input else input)

/-- C10 witness: the empty input parses without error into an empty domain. -/
theorem c10_witness :
    ∃ r, UrlParser.init [] = Except.ok r ∧ r.domain = [] :=
  (c10_empty_authority []).1 (by decide)

/-- C1: two refutations of "a worker never raises out of run", evaluating
the modelled run body.  With the resolver capability absent and mxcheck
enabled, the mxcheck block reads the local dns_mx that no statement on that
path ever assigns, so run raises UnboundLocalError; with the resolver
present, banners enabled, and a candidate whose A query failed while AAAA
resolved, the banners block evaluates domain["dns-a"][0] outside any try
and raises KeyError. -/
theorem c1_worker_crashes :
    DomainThread.processCandidate c1OptsMx c1EnvGai c1Job =
        Except.error PyExc.unboundLocal ∧
    DomainThread.processCandidate c1OptsBan c1EnvAaaa c1Job =
        Except.error PyExc.keyError := by
  exact ⟨rfl, rfl⟩

/-- C6: for the candidate equal to the original domain, with mxcheck
enabled and an MX record present, the modelled run still performs the MX
relay probe and sets mx-spy, because the source compares the freshly
re-encoded name to the original with the identity operator is not. -/
theorem c6_mx_probe_on_original :
    c6Job.name = c6Opts.domainOrig ∧
    (DomainThread.processCandidate c6Opts c6Env c6Job).toOption.map
        (fun r => r.1.mxSpy) = some (some true) := by
  exact ⟨rfl, by decide⟩

set_option maxHeartbeats 2000000 in
/-- C5: in the resolver block, the MX query is issued exactly when the NS
query succeeded (and then nxdomain is false); the A and AAAA queries are
issued exactly when nxdomain is false, whatever the NS outcome; and on
NXDOMAIN from the NS query the trace stops at the NS query alone. -/
theorem c5_dns_ordering (env : DomainThread.ProbeEnv) (rec0 : DomainThread.DRecord) :
    (DomainThread.QType.MX ∈ (DomainThread.dnsResolveBlock env rec0).2.2 ↔
      ((DomainThread.dnsResolveBlock env rec0).2.1.dns_ns = some true ∧
       (DomainThread.dnsResolveBlock env rec0).2.1.nxdomain = some false)) ∧
    (DomainThread.QType.A ∈ (DomainThread.dnsResolveBlock env rec0).2.2 ↔
      (DomainThread.dnsResolveBlock env rec0).2.1.nxdomain = some false) ∧
    (DomainThread.QType.AAAA ∈ (DomainThread.dnsResolveBlock env rec0).2.2 ↔
      (DomainThread.dnsResolveBlock env rec0).2.1.nxdomain = some false) ∧
    (env.ns = DomainThread.DnsOutcome.nxdomain →
      (DomainThread.dnsResolveBlock env rec0).2.2 = [DomainThread.QType.NS]) := by
  cases hns : env.ns <;> cases ha : env.a <;> cases haa : env.aaaa <;> cases hmx : env.mx <;>
    simp [DomainThread.dnsResolveBlock, hns, ha, haa, hmx]

/-- C5 witness: on an NXDOMAIN answer to the NS query, the concrete trace
is the NS query alone. -/
theorem c5_witness :
    (DomainThread.dnsResolveBlock c5EnvNx c5Rec).2.2 = [DomainThread.QType.NS] :=
  (c5_dns_ordering c5EnvNx c5Rec).2.2.2 rfl

theorem splitOnPred_ne_nil (p : Char → Bool) (l : Str) : splitOnPred p l ≠ [] := by
  cases l with
  | nil => simp [splitOnPred]
  | cons c rest =>
    simp only [splitOnPred]
    split <;> simp

theorem hyphenGroup_charwise_aux :
    ∀ (n : Nat) (l : Str), l.length ≤ n →
      (UrlParser.hyphenGroupOk l = true ↔ ldhLabelOk l = true) := by
  intro n
  induction n with
  | zero =>
    intro l hl
    have : l = [] := List.eq_nil_of_length_eq_zero (Nat.le_zero.mp hl)
    subst this
    decide
  | succ n ih =>
    intro l hl
    cases l with
    | nil => decide
    | cons c rest =>
      by_cases hc : c = '-'
      · subst hc
        constructor
        · intro h
          exfalso
          simp [UrlParser.hyphenGroupOk, splitOnPred] at h
        · intro h
          exfalso
          simp [ldhLabelOk] at h
      · cases rest with
        | nil =>
          simp [UrlParser.hyphenGroupOk, splitOnPred, ldhLabelOk, noDoubleHyphen,
            noDoubleHyphenGo, hc]
        | cons d rest2 =>
          by_cases hd : d = '-'
          · subst hd
            have hstepA : UrlParser.hyphenGroupOk (c :: '-' :: rest2) = true ↔
                (matchAlnumCI c = true ∧ UrlParser.hyphenGroupOk rest2 = true) := by
              simp [UrlParser.hyphenGroupOk, splitOnPred, hc]
            have hstepB : ldhLabelOk (c :: '-' :: rest2) = true ↔
                (matchAlnumCI c = true ∧ ldhLabelOk rest2 = true) := by
              cases rest2 with
              | nil =>
                simp [ldhLabelOk, noDoubleHyphen, noDoubleHyphenGo, hc]
              | cons d2 r3 =>
                simp [ldhLabelOk, noDoubleHyphen, noDoubleHyphenGo, hc, List.getLastD_cons]
                tauto
            rw [hstepA, hstepB]
            have ihr := ih rest2 (by simp at hl; omega)
            rw [ihr]
          · have hstepA : UrlParser.hyphenGroupOk (c :: d :: rest2) = true ↔
                (matchAlnumCI c = true ∧ UrlParser.hyphenGroupOk (d :: rest2) = true) := by
              simp [UrlParser.hyphenGroupOk, splitOnPred, hc, hd]
              tauto
            have hstepB : ldhLabelOk (c :: d :: rest2) = true ↔
                (matchAlnumCI c = true ∧ ldhLabelOk (d :: rest2) = true) := by
              simp [ldhLabelOk, noDoubleHyphen, noDoubleHyphenGo, hc, hd, List.getLastD_cons]
              tauto
            rw [hstepA, hstepB]
            have ihr := ih (d :: rest2) (by simp only [List.length_cons] at hl ⊢; omega)
            rw [ihr]

theorem hyphenGroup_charwise (l : Str) :
    UrlParser.hyphenGroupOk l = true ↔ ldhLabelOk l = true :=
  hyphenGroup_charwise_aux l.length l (Nat.le_refl _)

theorem all_hyphenGroup_eq (ls : List Str) :
    ls.all UrlParser.hyphenGroupOk = ls.all ldhLabelOk := by
  induction ls with
  | nil => rfl
  | cons x xs ih =>
    simp only [List.all_cons, ih]
    have hx := hyphenGroup_charwise x
    cases h1 : UrlParser.hyphenGroupOk x <;> cases h2 : ldhLabelOk x <;> simp_all

theorem urlRegex_eq_core (s : Str) :
    UrlParser.urlRegexOk s =
      (decide ((splitOnPred (· = '.') s).dropLast ≠ []) &&
        (splitOnPred (· = '.') s).dropLast.all ldhLabelOk &&
        decide (2 ≤ ((splitOnPred (· = '.') s).getLastD []).length) &&
        ((splitOnPred (· = '.') s).getLastD []).all matchAlphaCI) := by
  unfold UrlParser.urlRegexOk
  dsimp only
  rw [all_hyphenGroup_eq]

theorem validator_accepts_long_s :
    UrlParser.validate_domain "aſb.com".data = Except.ok true := rfl

theorem validator_accepts_dotless_i :
    UrlParser.validate_domain "aıb.com".data = Except.ok true := rfl

/-- C8 counterexample: the domain a--b.com satisfies the claimed syntactic
form (length at most 253, LDH labels of 1..63 characters without leading or
trailing hyphen, letter TLD), yet the validator rejects it (its regex
forbids doubled hyphens) and UrlParser raises the domain-invalid error. -/
theorem c8_counterexample :
    c8ClaimForm "a--b.com".data = true ∧
    UrlParser.validate_domain "a--b.com".data = Except.ok false ∧
    UrlParser.init "a--b.com".data = Except.error PyExc.valueError := by
  exact ⟨by decide, rfl, rfl⟩

/-- C8 (amended): the validator accepts a (non-empty) domain exactly when:
its total length is at most 255 (measured before stripping one optional
trailing dot), and after stripping one trailing dot it consists of one or
more labels followed by a final label of at least two letters, where every
non-final label is non-empty, uses letters, digits and hyphens only, and
has no leading, trailing or doubled hyphen (labels have no length bound). -/
theorem c8_amended (domain : Str) (h : domain ≠ []) :
    UrlParser.validate_domain domain = Except.ok true ↔ c8AmendedForm domain = true := by
  obtain ⟨last, hgl⟩ : ∃ last, domain.getLast? = some last := by
    cases hq : domain.getLast? with
    | none => exact absurd (List.getLast?_eq_none_iff.mp hq) h
    | some x => exact ⟨x, rfl⟩
  unfold UrlParser.validate_domain c8AmendedForm
  by_cases hlen : domain.length > 255
  · rw [if_pos hlen]
    constructor
    · intro habs
      exact absurd (Except.ok.inj habs) (by decide)
    · intro habs
      rw [Bool.and_eq_true, decide_eq_true_eq] at habs
      omega
  · rw [if_neg hlen, hgl]
    have h255 : decide (domain.length ≤ 255) = true := by
      rw [decide_eq_true_eq]
      omega
    rw [h255, Bool.true_and]
    have hgd : domain.getLastD ' ' = last := by
      rw [List.getLastD_eq_getLast?, hgl]
      rfl
    rw [hgd]
    simp only [Except.ok.injEq]
    rw [urlRegex_eq_core]

/-- C8 witness: the amended equivalence applied at a-b.com, which the
validator accepts. -/
theorem c8_witness :
    UrlParser.validate_domain "a-b.com".data = Except.ok true :=
  (c8_amended "a-b.com".data (by decide)).mpr (by decide)
